import Mathlib

/-!
# Verification of the IPM camera pipeline (src/lanefitting/ipm.py)

Shallow embedding of the inverse-perspective-mapping script: the Camera class
(intrinsic matrix K, rotation R, translation t, projection P), the
output-resolution computation, the plane-to-world matrix M, the homography
inversion, and the per-item warping loop.  Real-valued calibration quantities
are modelled over the reals; pixel-level computations over rationals and
integers.  The class-level numpy array K, which setK mutates in place, is
modelled by passing the shared array state explicitly through each
construction.
-/

namespace IPMSpec

open scoped Matrix

/-- Calibration record consumed by the Camera constructor. -/
structure Config where
  fx : ℝ
  fy : ℝ
  px : ℝ
  py : ℝ
  yaw : ℝ
  pitch : ℝ
  roll : ℝ
  XCam : ℝ
  YCam : ℝ
  ZCam : ℝ

/-- np.deg2rad: degrees to radians. -/
noncomputable def deg2rad (d : ℝ) : ℝ := d * Real.pi / 180

/-- Camera.setK: writes fx, fy, px, py and the homogeneous 1 into the five
populated entries of the existing 3x3 array K, leaving every other entry as it
was.  The Python method mutates the shared class-level array in place, so the
updated array is returned as the new shared state. -/
def Camera.setK (K : Matrix (Fin 3) (Fin 3) ℝ) (fx fy px py : ℝ) :
    Matrix (Fin 3) (Fin 3) ℝ :=
  Matrix.of fun i j =>
    if i = 0 ∧ j = 0 then fx
    else if i = 1 ∧ j = 1 then fy
    else if i = 0 ∧ j = 2 then px
    else if i = 1 ∧ j = 2 then py
    else if i = 2 ∧ j = 2 then 1
    else K i j

/-- The local Rz of Camera.setR, already evaluated at the negated yaw:
rows [cos(-y), -sin(-y), 0], [sin(-y), cos(-y), 0], [0, 0, 1]. -/
noncomputable def Rz (y : ℝ) : Matrix (Fin 3) (Fin 3) ℝ :=
  !![Real.cos (-y), -Real.sin (-y), 0;
     Real.sin (-y),  Real.cos (-y), 0;
     0, 0, 1]

/-- The local Ry of Camera.setR, already evaluated at the negated pitch. -/
noncomputable def Ry (p : ℝ) : Matrix (Fin 3) (Fin 3) ℝ :=
  !![Real.cos (-p), 0, Real.sin (-p);
     0, 1, 0;
     -Real.sin (-p), 0, Real.cos (-p)]

/-- The local Rx of Camera.setR, already evaluated at the negated roll. -/
noncomputable def Rx (r : ℝ) : Matrix (Fin 3) (Fin 3) ℝ :=
  !![1, 0, 0;
     0, Real.cos (-r), -Real.sin (-r);
     0, Real.sin (-r), Real.cos (-r)]

/-- The axis-switch matrix Rs of Camera.setR (x = -y, y = -z, z = x). -/
noncomputable def Rs : Matrix (Fin 3) (Fin 3) ℝ :=
  !![0, -1, 0;
     0, 0, -1;
     1, 0, 0]

/-- Camera.setR: R = Rs.dot(Rz.dot(Ry.dot(Rx))). -/
noncomputable def Camera.setR (y p r : ℝ) : Matrix (Fin 3) (Fin 3) ℝ :=
  Rs * (Rz y * (Ry p * Rx r))

/-- Camera.setT: t = -R.dot(X) with X = [XCam, YCam, ZCam]. -/
noncomputable def Camera.setT (R : Matrix (Fin 3) (Fin 3) ℝ)
    (XCam YCam ZCam : ℝ) : Fin 3 → ℝ :=
  -(R.mulVec ![XCam, YCam, ZCam])

/-- Camera.updateP: Rt = [R | t] and P = K.dot(Rt). -/
noncomputable def Camera.updateP (K R : Matrix (Fin 3) (Fin 3) ℝ)
    (t : Fin 3 → ℝ) : Matrix (Fin 3) (Fin 4) ℝ :=
  K * Matrix.of (fun (i : Fin 3) (j : Fin 4) =>
    if h : (j : ℕ) < 3 then R i ⟨j, h⟩ else t i)

/-- The per-instance attributes rebound by Camera construction: setR, setT and
updateP assign R, t and P on the instance, while K stays on the class. -/
structure CamInst where
  R : Matrix (Fin 3) (Fin 3) ℝ
  t : Fin 3 → ℝ
  P : Matrix (Fin 3) (Fin 4) ℝ

/-- The DEBUG_SCALE_FACTOR constant of Camera.__init__. -/
def DEBUG_SCALE_FACTOR : ℝ := 8

/-- Camera.__init__, with the shared class-level array K passed explicitly:
yields the per-instance attributes together with the new state of the shared
K array.  Angles are fed through np.deg2rad, and YCam and ZCam are multiplied
by DEBUG_SCALE_FACTOR before setT. -/
noncomputable def Camera.init (K : Matrix (Fin 3) (Fin 3) ℝ) (cfg : Config) :
    CamInst × Matrix (Fin 3) (Fin 3) ℝ :=
  let Knew := Camera.setK K cfg.fx cfg.fy cfg.px cfg.py
  let R := Camera.setR (deg2rad cfg.yaw) (deg2rad cfg.pitch) (deg2rad cfg.roll)
  let t := Camera.setT R cfg.XCam (cfg.YCam * DEBUG_SCALE_FACTOR)
    (cfg.ZCam * DEBUG_SCALE_FACTOR)
  let P := Camera.updateP Knew R t
  (⟨R, t, P⟩, Knew)

/-- Initial value of the class-level attribute K = np.zeros([3, 3]). -/
def K0 : Matrix (Fin 3) (Fin 3) ℝ := 0

/-- outputRes = (int(height * pxPerM[0]), int(width * pxPerM[1])), computed
from the pixel dimensions of the first source image.  The Python int()
truncates; every quantity involved is nonnegative, where truncation and floor
agree. -/
def outputRes (height width : ℕ) (pxPerM : ℚ × ℚ) : ℤ × ℤ :=
  (⌊(height : ℚ) * pxPerM.1⌋, ⌊(width : ℚ) * pxPerM.2⌋)

/-- shift = (outputRes[0] / 2.0, outputRes[1] / 2.0). -/
def shift (res : ℤ × ℤ) : ℚ × ℚ := ((res.1 : ℚ) / 2, (res.2 : ℚ) / 2)

/-- The 4x3 matrix M mapping output-plane pixel coordinates to homogeneous
world coordinates on the plane z = 0, exactly as assembled in the script. -/
noncomputable def Mmat (pxPerM : ℚ × ℚ) (sh : ℚ × ℚ) :
    Matrix (Fin 4) (Fin 3) ℝ :=
  !![1 / (pxPerM.2 : ℝ), 0, -(sh.2 : ℝ) / (pxPerM.2 : ℝ);
     0, -1 / (pxPerM.1 : ℝ), (sh.1 : ℝ) / (pxPerM.1 : ℝ);
     0, 0, 0;
     0, 0, 1]

/-- The error np.linalg.inv raises on an exactly singular matrix. -/
inductive NumpyError where
  | LinAlgError
deriving DecidableEq

/-- np.linalg.inv on a 3x3 matrix: fails with LinAlgError when the
determinant is zero and returns the inverse otherwise. -/
noncomputable def npLinalgInv (A : Matrix (Fin 3) (Fin 3) ℝ) :
    Except NumpyError (Matrix (Fin 3) (Fin 3) ℝ) :=
  if A.det = 0 then Except.error NumpyError.LinAlgError else Except.ok A⁻¹

/-- One entry of the IPMs list: np.linalg.inv(cam.P.dot(M)). -/
noncomputable def computeIPM (P : Matrix (Fin 3) (Fin 4) ℝ)
    (M : Matrix (Fin 4) (Fin 3) ℝ) :
    Except NumpyError (Matrix (Fin 3) (Fin 3) ℝ) :=
  npLinalgInv (P * M)

/-- The projection matrix of the camera the script constructs from a
calibration record, starting from the zero-initialised class array. -/
noncomputable def pipelineP (cfg : Config) : Matrix (Fin 3) (Fin 4) ℝ :=
  (Camera.init K0 cfg).1.P

/-- The matrix M as built at top level: pxPerM = (args.r, args.r) and
shift = half of outputRes per axis. -/
noncomputable def pipelineM (height width : ℕ) (r : ℚ) :
    Matrix (Fin 4) (Fin 3) ℝ :=
  Mmat (r, r) (shift (outputRes height width (r, r)))

/-- A categorical image: height, width and integer pixel labels. -/
structure Image where
  h : ℕ
  w : ℕ
  px : ℕ → ℕ → ℤ

/-- Modelled from the spec: cv2.warpPerspective with flags = INTER_NEAREST
and the default constant black border, whose implementation is not part of
the repository source.  Each destination pixel (u, v) is mapped through the
homography H; when the back-projected source coordinate rounds to a pixel
inside the source bounds that nearest source pixel is sampled, otherwise the
destination pixel is filled with the background value 0. -/
def warpPerspectiveNearest (img : Image) (H : Matrix (Fin 3) (Fin 3) ℚ)
    (dsize : ℕ × ℕ) : Image where
  h := dsize.2
  w := dsize.1
  px := fun v u =>
    let d := H 2 0 * (u : ℚ) + H 2 1 * (v : ℚ) + H 2 2
    if d = 0 then 0 else
      let x := round ((H 0 0 * (u : ℚ) + H 0 1 * (v : ℚ) + H 0 2) / d)
      let y := round ((H 1 0 * (u : ℚ) + H 1 1 * (v : ℚ) + H 1 2) / d)
      if 0 ≤ x ∧ x < (img.w : ℤ) ∧ 0 ≤ y ∧ y < (img.h : ℤ) then
        img.px y.toNat x.toNat
      else 0

/-- The warping loop body for one batch item: zip(images, IPMs) and warp each
resulting pair (color-coded mode, interpMode = cv2.INTER_NEAREST). -/
def processItem (images : List Image)
    (ipms : List (Matrix (Fin 3) (Fin 3) ℚ)) (dsize : ℕ × ℕ) : List Image :=
  (images.zip ipms).map fun pr => warpPerspectiveNearest pr.1 pr.2 dsize

/-- The batch loop: every image tuple is processed independently. -/
def processBatch (items : List (List Image))
    (ipms : List (Matrix (Fin 3) (Fin 3) ℚ)) (dsize : ℕ × ℕ) :
    List (List Image) :=
  items.map fun images => processItem images ipms dsize

/-- The rotation actually built by Camera.__init__ from a calibration
record: the three angles are fed through np.deg2rad. -/
noncomputable def setRCode (cfg : Config) : Matrix (Fin 3) (Fin 3) ℝ :=
  Camera.setR (deg2rad cfg.yaw) (deg2rad cfg.pitch) (deg2rad cfg.roll)

/-- Modelled from the spec, for comparison with setRCode: a constructor that
consumes yaw, pitch, roll directly as radians with no unit conversion. -/
noncomputable def setRSpecRadians (cfg : Config) : Matrix (Fin 3) (Fin 3) ℝ :=
  Camera.setR cfg.yaw cfg.pitch cfg.roll

/-- The translation prescribed by the spec formula t = -R [X, Y, Z], taking
the raw camera position of the calibration record with no rescaling. -/
noncomputable def specTranslation (R : Matrix (Fin 3) (Fin 3) ℝ)
    (cfg : Config) : Fin 3 → ℝ :=
  -(R.mulVec ![cfg.XCam, cfg.YCam, cfg.ZCam])

/-- A zero-angle calibration at the world origin with camera height z, unit
focal lengths and principal point at the origin. -/
noncomputable def cfgZ (z : ℝ) : Config :=
  ⟨1, 1, 0, 0, 0, 0, 0, 0, 0, z⟩

/-- Calibration with the camera displaced one meter along world Y,
zero angles. -/
noncomputable def cfgC1 : Config :=
  ⟨1, 1, 0, 0, 0, 0, 0, 0, 1, 0⟩

/-- Calibration with yaw 90, zero pitch and roll. -/
noncomputable def cfgC7 : Config :=
  ⟨1, 1, 0, 0, 90, 0, 0, 0, 0, 1⟩

/-- First calibration used for the shared-K observations: fx = 1. -/
noncomputable def cfgA : Config :=
  ⟨1, 1, 0, 0, 0, 0, 0, 0, 0, 0⟩

/-- Second calibration used for the shared-K observations: fx = 2. -/
noncomputable def cfgB : Config :=
  ⟨2, 1, 0, 0, 0, 0, 0, 0, 0, 0⟩

/-- A 1x1 image with constant label 1. -/
def imgA : Image := ⟨1, 1, fun _ _ => 1⟩

/-- A 1x1 image with constant label 2. -/
def imgB : Image := ⟨1, 1, fun _ _ => 2⟩

/-- The identity homography. -/
def Hid : Matrix (Fin 3) (Fin 3) ℚ := !![1, 0, 0; 0, 1, 0; 0, 0, 1]

/-- A 1x2 image whose pixels take exactly the two label values 5 and 7. -/
def imgC9 : Image := ⟨1, 2, fun _ x => if x = 0 then 5 else 7⟩

/-! ## Basic computation lemmas -/

lemma Rz_zero : Rz 0 = 1 := by
  ext i j
  fin_cases i <;> fin_cases j <;>
    simp [Rz, Matrix.one_apply, Matrix.vecHead, Matrix.vecTail]

lemma Ry_zero : Ry 0 = 1 := by
  ext i j
  fin_cases i <;> fin_cases j <;>
    simp [Ry, Matrix.one_apply, Matrix.vecHead, Matrix.vecTail]

lemma Rx_zero : Rx 0 = 1 := by
  ext i j
  fin_cases i <;> fin_cases j <;>
    simp [Rx, Matrix.one_apply, Matrix.vecHead, Matrix.vecTail]

lemma setR_zero : Camera.setR 0 0 0 = Rs := by
  simp [Camera.setR, Rz_zero, Ry_zero, Rx_zero]

lemma deg2rad_zero : deg2rad 0 = 0 := by simp [deg2rad]

lemma init_fst_R (K : Matrix (Fin 3) (Fin 3) ℝ) (cfg : Config) :
    (Camera.init K cfg).1.R = setRCode cfg := rfl

lemma init_fst_t (K : Matrix (Fin 3) (Fin 3) ℝ) (cfg : Config) :
    (Camera.init K cfg).1.t =
      Camera.setT (setRCode cfg) cfg.XCam (cfg.YCam * 8) (cfg.ZCam * 8) := rfl

lemma init_fst_P (K : Matrix (Fin 3) (Fin 3) ℝ) (cfg : Config) :
    (Camera.init K cfg).1.P =
      Camera.updateP (Camera.setK K cfg.fx cfg.fy cfg.px cfg.py)
        (setRCode cfg) ((Camera.init K cfg).1.t) := rfl

lemma init_snd (K : Matrix (Fin 3) (Fin 3) ℝ) (cfg : Config) :
    (Camera.init K cfg).2 =
      Camera.setK K cfg.fx cfg.fy cfg.px cfg.py := rfl

lemma setRCode_cfgZ (z : ℝ) : setRCode (cfgZ z) = Rs := by
  simp [setRCode, cfgZ, deg2rad_zero, setR_zero]

lemma t_cfgZ (z : ℝ) : (Camera.init K0 (cfgZ z)).1.t = ![0, z * 8, 0] := by
  rw [init_fst_t, setRCode_cfgZ]
  funext i
  fin_cases i <;>
    simp [Camera.setT, cfgZ, Rs, Matrix.mulVec, Matrix.dotProduct,
      Fin.sum_univ_three]

lemma K_cfgZ (z : ℝ) : (Camera.init K0 (cfgZ z)).2 = 1 := by
  rw [init_snd]
  ext i j
  fin_cases i <;> fin_cases j <;>
    simp [Camera.setK, cfgZ, K0, Matrix.one_apply]

lemma P_cfgZ (z : ℝ) : (Camera.init K0 (cfgZ z)).1.P =
    !![0, -1, 0, 0; 0, 0, -1, z * 8; 1, 0, 0, 0] := by
  rw [init_fst_P]
  rw [show Camera.setK K0 (cfgZ z).fx (cfgZ z).fy (cfgZ z).px (cfgZ z).py = 1
    from by rw [← init_snd]; exact K_cfgZ z]
  rw [setRCode_cfgZ, t_cfgZ]
  ext i j
  fin_cases i <;> fin_cases j <;>
    simp [Camera.updateP, Rs, Matrix.one_mul, Matrix.vecHead, Matrix.vecTail]
  all_goals intro h
  all_goals exact absurd h (by decide)

lemma pipelineM_unit : pipelineM 2 2 1 =
    !![1, 0, -1; 0, -1, 1; 0, 0, 0; 0, 0, 1] := by
  have h1 : outputRes 2 2 (1, 1) = (2, 2) := by norm_num [outputRes]
  rw [pipelineM, h1]
  ext i j
  fin_cases i <;> fin_cases j <;>
    simp [Mmat, shift, Matrix.vecHead, Matrix.vecTail]

lemma PM_cfgZ (z : ℝ) : pipelineP (cfgZ z) * pipelineM 2 2 1 =
    !![0, 1, -1; 0, 0, z * 8; 1, 0, -1] := by
  rw [pipelineP, P_cfgZ, pipelineM_unit]
  ext i j
  fin_cases i <;> fin_cases j <;>
    simp [Matrix.mul_apply, Fin.sum_univ_four, Matrix.vecHead,
      Matrix.vecTail]

lemma det_PM_cfgZ (z : ℝ) : (pipelineP (cfgZ z) * pipelineM 2 2 1).det =
    z * 8 := by
  rw [PM_cfgZ]
  simp [Matrix.det_fin_three]

/-! ## Orthogonality of the rotation factors -/

lemma mul_orth (A B : Matrix (Fin 3) (Fin 3) ℝ) (hA : Aᵀ * A = 1)
    (hB : Bᵀ * B = 1) : (A * B)ᵀ * (A * B) = 1 := by
  rw [Matrix.transpose_mul, Matrix.mul_assoc, ← Matrix.mul_assoc Aᵀ A B, hA,
    Matrix.one_mul, hB]

lemma Rz_orth (y : ℝ) : (Rz y)ᵀ * Rz y = 1 := by
  ext i j
  fin_cases i <;> fin_cases j <;>
    simp [Rz, Matrix.mul_apply, Fin.sum_univ_three, Matrix.transpose_apply,
      Matrix.one_apply, Matrix.vecHead, Matrix.vecTail] <;>
    first
      | ring1
      | linear_combination Real.sin_sq_add_cos_sq y
      | linear_combination Real.sin_sq_add_cos_sq (-y)
      | linear_combination -Real.sin_sq_add_cos_sq y

lemma Ry_orth (p : ℝ) : (Ry p)ᵀ * Ry p = 1 := by
  ext i j
  fin_cases i <;> fin_cases j <;>
    simp [Ry, Matrix.mul_apply, Fin.sum_univ_three, Matrix.transpose_apply,
      Matrix.one_apply, Matrix.vecHead, Matrix.vecTail] <;>
    first
      | ring1
      | linear_combination Real.sin_sq_add_cos_sq p
      | linear_combination Real.sin_sq_add_cos_sq (-p)
      | linear_combination -Real.sin_sq_add_cos_sq p

lemma Rx_orth (r : ℝ) : (Rx r)ᵀ * Rx r = 1 := by
  ext i j
  fin_cases i <;> fin_cases j <;>
    simp [Rx, Matrix.mul_apply, Fin.sum_univ_three, Matrix.transpose_apply,
      Matrix.one_apply, Matrix.vecHead, Matrix.vecTail] <;>
    first
      | ring1
      | linear_combination Real.sin_sq_add_cos_sq r
      | linear_combination Real.sin_sq_add_cos_sq (-r)
      | linear_combination -Real.sin_sq_add_cos_sq r

lemma Rs_orth : Rsᵀ * Rs = 1 := by
  ext i j
  fin_cases i <;> fin_cases j <;>
    simp [Rs, Matrix.mul_apply, Fin.sum_univ_three, Matrix.transpose_apply,
      Matrix.one_apply, Matrix.vecHead, Matrix.vecTail]

lemma Rz_det (y : ℝ) : (Rz y).det = 1 := by
  simp [Rz, Matrix.det_fin_three, Matrix.vecHead, Matrix.vecTail]
  first
    | linear_combination Real.sin_sq_add_cos_sq y
    | linear_combination Real.sin_sq_add_cos_sq (-y)
    | ring1

lemma Ry_det (p : ℝ) : (Ry p).det = 1 := by
  simp [Ry, Matrix.det_fin_three, Matrix.vecHead, Matrix.vecTail]
  first
    | linear_combination Real.sin_sq_add_cos_sq p
    | linear_combination Real.sin_sq_add_cos_sq (-p)
    | ring1

lemma Rx_det (r : ℝ) : (Rx r).det = 1 := by
  simp [Rx, Matrix.det_fin_three, Matrix.vecHead, Matrix.vecTail]
  first
    | linear_combination Real.sin_sq_add_cos_sq r
    | linear_combination Real.sin_sq_add_cos_sq (-r)
    | ring1

lemma Rs_det : Rs.det = 1 := by
  simp [Rs, Matrix.det_fin_three, Matrix.vecHead, Matrix.vecTail]

/-! ## Entry computations used for the angle-unit comparison -/

lemma setR_y00 (y : ℝ) : Camera.setR y 0 0 = Rs * Rz y := by
  rw [Camera.setR, Ry_zero, Rx_zero, Matrix.one_mul, Matrix.mul_one]

lemma setR_entry01 (y : ℝ) : Camera.setR y 0 0 0 1 = -Real.cos y := by
  rw [setR_y00]
  simp [Rs, Rz, Matrix.mul_apply, Fin.sum_univ_three, Matrix.vecHead,
    Matrix.vecTail]

lemma deg2rad_90 : deg2rad 90 = Real.pi / 2 := by
  rw [deg2rad]; ring

lemma cos_90_ne_zero : Real.cos 90 ≠ 0 := by
  intro h0
  rcases Real.cos_eq_zero_iff.mp h0 with ⟨k, hk⟩
  have hk0 : (2 * (k : ℝ) + 1) ≠ 0 := by
    have h1 : (2 * k + 1 : ℤ) ≠ 0 := by omega
    exact_mod_cast h1
  have hpi : Real.pi = 180 / (2 * (k : ℝ) + 1) := by
    rw [eq_div_iff hk0]
    linear_combination -2 * hk
  refine irrational_pi ⟨180 / (2 * (k : ℚ) + 1), ?_⟩
  push_cast
  rw [hpi]

lemma setR_orth (y p r : ℝ) :
    (Camera.setR y p r)ᵀ * Camera.setR y p r = 1 :=
  mul_orth Rs _ Rs_orth
    (mul_orth _ _ (Rz_orth y) (mul_orth _ _ (Ry_orth p) (Rx_orth r)))

lemma setR_det (y p r : ℝ) : (Camera.setR y p r).det = 1 := by
  simp [Camera.setR, Matrix.det_mul, Rs_det, Rz_det, Ry_det, Rx_det]

lemma setK_setK (K : Matrix (Fin 3) (Fin 3) ℝ) (a b c d e f g h2 : ℝ) :
    Camera.setK (Camera.setK K a b c d) e f g h2 =
      Camera.setK K e f g h2 := by
  ext i j
  simp only [Camera.setK, Matrix.of_apply]
  split_ifs <;> rfl

lemma setRCode_cfgC1 : setRCode cfgC1 = Rs := by
  simp [setRCode, cfgC1, deg2rad_zero, setR_zero]

lemma t_cfgC1 : (Camera.init K0 cfgC1).1.t = ![8, 0, 0] := by
  rw [init_fst_t, setRCode_cfgC1]
  funext i
  fin_cases i <;>
    simp [Camera.setT, cfgC1, Rs, Matrix.mulVec, Matrix.dotProduct,
      Fin.sum_univ_three, Matrix.vecHead, Matrix.vecTail]

lemma specTranslation_cfgC1 : specTranslation Rs cfgC1 = ![1, 0, 0] := by
  funext i
  fin_cases i <;>
    simp [specTranslation, cfgC1, Rs, Matrix.mulVec, Matrix.dotProduct,
      Fin.sum_univ_three, Matrix.vecHead, Matrix.vecTail]

lemma setRCode_cfgC7_01 : setRCode cfgC7 0 1 = 0 := by
  have h : setRCode cfgC7 = Camera.setR (deg2rad 90) 0 0 := by
    simp [setRCode, cfgC7, deg2rad_zero]
  rw [h, setR_entry01, deg2rad_90, Real.cos_pi_div_two, neg_zero]

lemma setRSpecRadians_cfgC7_01 : setRSpecRadians cfgC7 0 1 = -Real.cos 90 := by
  have h : setRSpecRadians cfgC7 = Camera.setR 90 0 0 := by
    simp [setRSpecRadians, cfgC7]
  rw [h, setR_entry01]

lemma Rs_mulVec (v : Fin 3 → ℝ) : Rs.mulVec v = ![-(v 1), -(v 2), v 0] := by
  funext i
  fin_cases i <;>
    simp [Rs, Matrix.mulVec, Matrix.dotProduct, Fin.sum_univ_three,
      Matrix.vecHead, Matrix.vecTail]

lemma deg2rad_add_360 (d : ℝ) : deg2rad (d + 360) = deg2rad d + 2 * Real.pi := by
  rw [deg2rad, deg2rad]; ring

lemma Rz_add_two_pi (y : ℝ) : Rz (y + 2 * Real.pi) = Rz y := by
  have harg : -(y + 2 * Real.pi) = -y - 2 * Real.pi := by ring
  unfold Rz
  rw [harg, Real.cos_sub_two_pi, Real.sin_sub_two_pi]

lemma setK_00 (K : Matrix (Fin 3) (Fin 3) ℝ) (a b c d : ℝ) :
    Camera.setK K a b c d 0 0 = a := rfl

lemma setK_11 (K : Matrix (Fin 3) (Fin 3) ℝ) (a b c d : ℝ) :
    Camera.setK K a b c d 1 1 = b := rfl

lemma setK_02 (K : Matrix (Fin 3) (Fin 3) ℝ) (a b c d : ℝ) :
    Camera.setK K a b c d 0 2 = c := rfl

lemma setK_12 (K : Matrix (Fin 3) (Fin 3) ℝ) (a b c d : ℝ) :
    Camera.setK K a b c d 1 2 = d := rfl

lemma init_init (Kinit : Matrix (Fin 3) (Fin 3) ℝ) (cfg1 cfg2 : Config) :
    Camera.init (Camera.init Kinit cfg1).2 cfg2 = Camera.init Kinit cfg2 := by
  rw [init_snd]
  simp only [Camera.init]
  rw [setK_setK]

/-! ## Claims -/

/-- C1: the spec states that Camera construction builds t = -R [X, Y, Z]
with exactly the camera-position values of the calibration record and no
rescaling of any component.  The code multiplies YCam and ZCam by
DEBUG_SCALE_FACTOR = 8 before calling setT.  At the failing input cfgC1
(zero angles, YCam = 1, XCam = ZCam = 0) the constructed translation is
[8, 0, 0] while the claimed formula gives [1, 0, 0]. -/
theorem C1_translation_debug_scale_bug :
    (Camera.init K0 cfgC1).1.t = ![8, 0, 0] ∧
    specTranslation ((Camera.init K0 cfgC1).1.R) cfgC1 = ![1, 0, 0] ∧
    (Camera.init K0 cfgC1).1.t ≠
      specTranslation ((Camera.init K0 cfgC1).1.R) cfgC1 := by
  have hR : (Camera.init K0 cfgC1).1.R = Rs := by
    rw [init_fst_R, setRCode_cfgC1]
  refine ⟨t_cfgC1, by rw [hR, specTranslation_cfgC1], ?_⟩
  rw [hR, specTranslation_cfgC1, t_cfgC1]
  intro h
  have h0 := congrFun h 0
  norm_num at h0

/-- C2: the spec states that the warped output image is exactly the physical
extent times the pixel density (20 m x 40 m at 20 px/m gives 400x800 pixels),
independent of the source image dimensions.  The code instead computes
outputRes from the pixel dimensions of the first source image and never reads
the -wm and -hm arguments: a 1280x720 source at 20 px/m gives a 25600x14400
output, and a source of different pixel size gives a different output size. -/
theorem C2_outputRes_from_image_dims :
    outputRes 720 1280 (20, 20) = (14400, 25600) ∧
    outputRes 720 1280 (20, 20) ≠ outputRes 360 640 (20, 20) ∧
    ((outputRes 720 1280 (20, 20)).2, (outputRes 720 1280 (20, 20)).1) ≠
      ((400 : ℤ), (800 : ℤ)) := by
  have h1 : outputRes 720 1280 (20, 20) = (14400, 25600) := by
    rw [outputRes]; norm_num
  have h2 : outputRes 360 640 (20, 20) = (7200, 12800) := by
    rw [outputRes]; norm_num
  refine ⟨h1, ?_, ?_⟩
  · rw [h1, h2]; decide
  · rw [h1]; decide

/-- C4 counterexample: a batch item with two images and one homography is
processed without any error: zip silently truncates, the result is the single
warp of the first image, and the second image is dropped. -/
theorem C4_zip_truncates_counterexample :
    [imgA, imgB].length = 2 ∧ [Hid].length = 1 ∧
    processItem [imgA, imgB] [Hid] (1, 1) =
      [warpPerspectiveNearest imgA Hid (1, 1)] ∧
    (processItem [imgA, imgB] [Hid] (1, 1)).length = 1 :=
  ⟨rfl, rfl, rfl, rfl⟩

/-- C4 amended: when the number of images differs from the number of
homographies, processing the item raises no error; zip(images, IPMs)
silently truncates to the shorter list, and every batch item still produces
a result. -/
theorem C4_zip_truncates (images : List Image)
    (ipms : List (Matrix (Fin 3) (Fin 3) ℚ)) (dsize : ℕ × ℕ)
    (items : List (List Image)) :
    (processItem images ipms dsize).length =
      min images.length ipms.length ∧
    (processBatch items ipms dsize).length = items.length := by
  constructor
  · simp [processItem]
  · simp [processBatch]

/-- C6 counterexample: after constructing a second camera with fx = 2, the
shared class-level array K, which every instance observes as its K attribute,
reads 2 at entry (0,0), no longer the 1 written by the first construction
with fx = 1: the matrices observed through an instance are not determined by
that construction alone. -/
theorem C6_sharedK_counterexample :
    ((Camera.init (Camera.init K0 cfgA).2 cfgB).2) 0 0 = 2 ∧
    ((Camera.init K0 cfgA).2) 0 0 = 1 ∧
    (Camera.init (Camera.init K0 cfgA).2 cfgB).2 ≠
      (Camera.init K0 cfgA).2 := by
  have h2 : ((Camera.init (Camera.init K0 cfgA).2 cfgB).2) 0 0 = 2 := by
    rw [init_snd, setK_00]; rfl
  have h1 : ((Camera.init K0 cfgA).2) 0 0 = 1 := by
    rw [init_snd, setK_00]; rfl
  refine ⟨h2, h1, ?_⟩
  intro h
  have h3 := congrArg (fun m : Matrix (Fin 3) (Fin 3) ℝ => m 0 0) h
  simp only at h3
  rw [h2, h1] at h3
  norm_num at h3

/-- C6 amended: construction is deterministic and, up to the shared
class-level K array, independent of other constructions: a construction
performed after any earlier one yields exactly the instance and shared state
of the same construction performed first, because setK overwrites the same
five entries.  The shared K itself, however, is overwritten by every
construction (see the counterexample). -/
theorem C6_construction_pure_up_to_sharedK
    (Kinit : Matrix (Fin 3) (Fin 3) ℝ) (cfg1 cfg2 : Config) :
    (Camera.init (Camera.init Kinit cfg1).2 cfg2).2 =
      (Camera.init Kinit cfg2).2 ∧
    (Camera.init (Camera.init Kinit cfg1).2 cfg2).1.R =
      (Camera.init Kinit cfg2).1.R ∧
    (Camera.init (Camera.init Kinit cfg1).2 cfg2).1.t =
      (Camera.init Kinit cfg2).1.t ∧
    (Camera.init (Camera.init Kinit cfg1).2 cfg2).1.P =
      (Camera.init Kinit cfg2).1.P := by
  have h := init_init Kinit cfg1 cfg2
  exact ⟨congrArg Prod.snd h, congrArg (fun s => s.1.R) h,
    congrArg (fun s => s.1.t) h, congrArg (fun s => s.1.P) h⟩

/-- C10: all Camera instances alias the one class-level K array: after a
second construction with different intrinsics, the shared K holds the second
calibration values (entries (0,0), (1,1), (0,2), (1,2)) and differs from the
array state observed after the first construction, while R and t of the
first instance are independent of the shared array entirely and P was
computed from the array state at its own construction. -/
theorem C10_class_level_K_aliasing
    (Kinit Kother : Matrix (Fin 3) (Fin 3) ℝ) (cfg1 cfg2 : Config)
    (hfx : cfg1.fx ≠ cfg2.fx) :
    (Camera.init (Camera.init Kinit cfg1).2 cfg2).2 0 0 = cfg2.fx ∧
    (Camera.init (Camera.init Kinit cfg1).2 cfg2).2 1 1 = cfg2.fy ∧
    (Camera.init (Camera.init Kinit cfg1).2 cfg2).2 0 2 = cfg2.px ∧
    (Camera.init (Camera.init Kinit cfg1).2 cfg2).2 1 2 = cfg2.py ∧
    (Camera.init (Camera.init Kinit cfg1).2 cfg2).2 ≠
      (Camera.init Kinit cfg1).2 ∧
    (Camera.init Kother cfg1).1.R = (Camera.init Kinit cfg1).1.R ∧
    (Camera.init Kother cfg1).1.t = (Camera.init Kinit cfg1).1.t ∧
    (Camera.init Kinit cfg1).1.P =
      Camera.updateP ((Camera.init Kinit cfg1).2) (setRCode cfg1)
        ((Camera.init Kinit cfg1).1.t) := by
  refine ⟨by rw [init_snd, setK_00], by rw [init_snd, setK_11],
    by rw [init_snd, setK_02], by rw [init_snd, setK_12], ?_, rfl, rfl, rfl⟩
  intro h
  have h3 := congrArg (fun m : Matrix (Fin 3) (Fin 3) ℝ => m 0 0) h
  simp only at h3
  rw [init_snd, setK_00, init_snd, setK_00] at h3
  exact hfx h3.symm

/-- C3 counterexample: at a zero-angle camera of height 10^-6 the composed
matrix P times M has the tiny nonzero determinant 8 times 10^-6, far below
any reasonable singularity threshold, yet the homography computation raises
nothing and silently returns the inverse; no DegenerateGeometryError exists
anywhere in the code. -/
theorem C3_near_singular_silently_inverted :
    (pipelineP (cfgZ (1 / 1000000)) * pipelineM 2 2 1).det ≠ 0 ∧
    |(pipelineP (cfgZ (1 / 1000000)) * pipelineM 2 2 1).det| <
      1 / 10000 ∧
    computeIPM (pipelineP (cfgZ (1 / 1000000))) (pipelineM 2 2 1) =
      Except.ok ((pipelineP (cfgZ (1 / 1000000)) * pipelineM 2 2 1)⁻¹) := by
  have hdet := det_PM_cfgZ (1 / 1000000)
  have hne : (pipelineP (cfgZ (1 / 1000000)) * pipelineM 2 2 1).det ≠ 0 := by
    rw [hdet]; norm_num
  refine ⟨hne, ?_, ?_⟩
  · rw [hdet, abs_of_pos (by norm_num)]; norm_num
  · rw [computeIPM, npLinalgInv, if_neg hne]

/-- C3 amended: the code applies no determinant threshold: np.linalg.inv
fails (with the generic numpy LinAlgError, there is no
DegenerateGeometryError) exactly when P times M is exactly singular, and for
every nonzero determinant, however small, it silently returns the true
inverse. -/
theorem C3_inv_error_iff_exactly_singular (P : Matrix (Fin 3) (Fin 4) ℝ)
    (M : Matrix (Fin 4) (Fin 3) ℝ) :
    ((P * M).det = 0 →
      computeIPM P M = Except.error NumpyError.LinAlgError) ∧
    ((P * M).det ≠ 0 →
      computeIPM P M = Except.ok (P * M)⁻¹ ∧
        (P * M)⁻¹ * (P * M) = 1) := by
  constructor
  · intro h
    rw [computeIPM, npLinalgInv, if_pos h]
  · intro h
    exact ⟨by rw [computeIPM, npLinalgInv, if_neg h],
      Matrix.nonsing_inv_mul _ (isUnit_iff_ne_zero.mpr h)⟩

/-- C3 witness: the exactly singular case (camera height 0, the camera
center lies in the ground plane) errors with LinAlgError, and a height-1
camera gets a genuine inverse. -/
theorem C3_inv_error_iff_exactly_singular_witness :
    computeIPM (pipelineP (cfgZ 0)) (pipelineM 2 2 1) =
      Except.error NumpyError.LinAlgError ∧
    (computeIPM (pipelineP (cfgZ 1)) (pipelineM 2 2 1) =
      Except.ok ((pipelineP (cfgZ 1) * pipelineM 2 2 1)⁻¹) ∧
      (pipelineP (cfgZ 1) * pipelineM 2 2 1)⁻¹ *
        (pipelineP (cfgZ 1) * pipelineM 2 2 1) = 1) := by
  constructor
  · exact (C3_inv_error_iff_exactly_singular _ _).1
      (by rw [det_PM_cfgZ]; norm_num)
  · exact (C3_inv_error_iff_exactly_singular _ _).2
      (by rw [det_PM_cfgZ]; norm_num)

/-- C5: for every calibration and output geometry with invertible P times M,
the IPM homography returned by the pipeline is the matrix inverse of P times
M (two-sided), and M maps an output pixel (u, v) to the world point with
X = u divided by the column pixel density minus the column shift over the
density, Y = minus v over the row density plus the row shift over the
density, Z = 0, homogeneous 1, where each shift is half the output
resolution of that axis. -/
theorem C5_ipm_is_inverse_of_PM (cfg : Config) (height width : ℕ) (r : ℚ)
    (hdet : (pipelineP cfg * pipelineM height width r).det ≠ 0) :
    computeIPM (pipelineP cfg) (pipelineM height width r) =
      Except.ok ((pipelineP cfg * pipelineM height width r)⁻¹) ∧
    (pipelineP cfg * pipelineM height width r)⁻¹ *
      (pipelineP cfg * pipelineM height width r) = 1 ∧
    (pipelineP cfg * pipelineM height width r) *
      (pipelineP cfg * pipelineM height width r)⁻¹ = 1 ∧
    (∀ u v : ℝ, (pipelineM height width r).mulVec ![u, v, 1] =
      ![u / (r : ℝ) -
          (((outputRes height width (r, r)).2 : ℝ) / 2) / (r : ℝ),
        -(v / (r : ℝ)) +
          (((outputRes height width (r, r)).1 : ℝ) / 2) / (r : ℝ),
        0, 1]) := by
  refine ⟨by rw [computeIPM, npLinalgInv, if_neg hdet],
    Matrix.nonsing_inv_mul _ (isUnit_iff_ne_zero.mpr hdet),
    Matrix.mul_nonsing_inv _ (isUnit_iff_ne_zero.mpr hdet), ?_⟩
  intro u v
  funext i
  fin_cases i <;>
    simp [pipelineM, Mmat, shift, Matrix.mulVec, Matrix.dotProduct,
      Fin.sum_univ_three, Matrix.vecHead, Matrix.vecTail] <;>
    push_cast <;> ring

/-- C5 witness at the height-1 zero-angle camera with a 2x2 source image and
density 1, where det (P M) = 8. -/
theorem C5_ipm_is_inverse_of_PM_witness :
    computeIPM (pipelineP (cfgZ 1)) (pipelineM 2 2 1) =
      Except.ok ((pipelineP (cfgZ 1) * pipelineM 2 2 1)⁻¹) ∧
    (pipelineP (cfgZ 1) * pipelineM 2 2 1)⁻¹ *
      (pipelineP (cfgZ 1) * pipelineM 2 2 1) = 1 ∧
    (pipelineP (cfgZ 1) * pipelineM 2 2 1) *
      (pipelineP (cfgZ 1) * pipelineM 2 2 1)⁻¹ = 1 ∧
    (∀ u v : ℝ, (pipelineM 2 2 1).mulVec ![u, v, 1] =
      ![u / ((1 : ℚ) : ℝ) -
          (((outputRes 2 2 (1, 1)).2 : ℝ) / 2) / ((1 : ℚ) : ℝ),
        -(v / ((1 : ℚ) : ℝ)) +
          (((outputRes 2 2 (1, 1)).1 : ℝ) / 2) / ((1 : ℚ) : ℝ),
        0, 1]) := by
  have hdet : (pipelineP (cfgZ 1) * pipelineM 2 2 1).det ≠ 0 := by
    rw [det_PM_cfgZ]; norm_num
  exact C5_ipm_is_inverse_of_PM (cfgZ 1) 2 2 1 hdet

/-- C7 counterexample: the spec says yaw, pitch, roll are consumed as
radians with no unit conversion; the code feeds them through np.deg2rad.
At yaw 90 (pitch and roll 0) the code rotation has entry (0,1) equal to
minus cos of pi over 2, that is 0, while the no-conversion rotation has
entry minus cos of 90 radians, which is nonzero because pi is irrational. -/
theorem C7_angles_are_degrees_counterexample :
    setRCode cfgC7 ≠ setRSpecRadians cfgC7 := by
  intro h
  have h01 := congrFun (congrFun h 0) 1
  rw [setRCode_cfgC7_01, setRSpecRadians_cfgC7_01] at h01
  exact cos_90_ne_zero (by linarith)

/-- C7 amended: Camera construction consumes yaw, pitch, roll as degrees,
converting them with np.deg2rad before building
R = Raxes Rz(-yaw) Ry(-pitch) Rx(-roll); the axis switch Raxes maps world
(x, y, z) to camera (-y, -z, x), and adding 360 to the yaw leaves the
rotation unchanged (degree periodicity). -/
theorem C7_rotation_from_degrees (cfg : Config) :
    setRCode cfg =
      Rs * (Rz (deg2rad cfg.yaw) *
        (Ry (deg2rad cfg.pitch) * Rx (deg2rad cfg.roll))) ∧
    (∀ x y z : ℝ, Rs.mulVec ![x, y, z] = ![-y, -z, x]) ∧
    setRCode { cfg with yaw := cfg.yaw + 360 } = setRCode cfg := by
  refine ⟨rfl, ?_, ?_⟩
  · intro x y z
    rw [Rs_mulVec]
    simp
  · show Camera.setR (deg2rad (cfg.yaw + 360)) (deg2rad cfg.pitch)
      (deg2rad cfg.roll) = _
    rw [Camera.setR, deg2rad_add_360, Rz_add_two_pi]
    rfl

/-- C8: for all real yaw, pitch, roll the rotation built by Camera.setR is
orthonormal: its transpose times itself is the identity and its determinant
is exactly 1 over the reals. -/
theorem C8_rotation_orthonormal (y p r : ℝ) :
    (Camera.setR y p r)ᵀ * Camera.setR y p r = 1 ∧
    (Camera.setR y p r).det = 1 :=
  ⟨setR_orth y p r, setR_det y p r⟩

/-- C9 counterexample: a 1x2 source whose pixels take exactly the labels 5
and 7, warped by the identity homography onto a wider 3x1 output: the
out-of-bounds destination pixel is filled with the background 0, a third
value distinct from both labels. -/
theorem C9_border_fill_counterexample :
    (∀ yy, yy < imgC9.h → ∀ xx, xx < imgC9.w →
      imgC9.px yy xx = 5 ∨ imgC9.px yy xx = 7) ∧
    imgC9.px 0 0 = 5 ∧ imgC9.px 0 1 = 7 ∧
    (warpPerspectiveNearest imgC9 Hid (3, 1)).px 0 0 = 5 ∧
    (warpPerspectiveNearest imgC9 Hid (3, 1)).px 0 1 = 7 ∧
    (warpPerspectiveNearest imgC9 Hid (3, 1)).px 0 2 = 0 ∧
    (0 : ℤ) ≠ 5 ∧ (0 : ℤ) ≠ 7 := by
  refine ⟨by decide, rfl, rfl, ?_, ?_, ?_, by decide, by decide⟩ <;>
    simp [warpPerspectiveNearest, imgC9, Hid, Matrix.vecHead, Matrix.vecTail]

/-- C9 amended: warping a source image all of whose in-bounds pixels take
one of the two labels a and b with NEAREST interpolation yields an output in
which every pixel is a, b, or the border fill value 0; no other value can
appear. -/
theorem C9_nearest_labels_or_border (img : Image)
    (H : Matrix (Fin 3) (Fin 3) ℚ) (dsize : ℕ × ℕ) (a b : ℤ)
    (hlab : ∀ yy, yy < img.h → ∀ xx, xx < img.w →
      img.px yy xx = a ∨ img.px yy xx = b) (v u : ℕ) :
    (warpPerspectiveNearest img H dsize).px v u = a ∨
    (warpPerspectiveNearest img H dsize).px v u = b ∨
    (warpPerspectiveNearest img H dsize).px v u = 0 := by
  dsimp only [warpPerspectiveNearest]
  split_ifs with hd hb
  · exact Or.inr (Or.inr rfl)
  · obtain ⟨hx0, hxw, hy0, hyh⟩ := hb
    have htn : ∀ {n : ℤ} {m : ℕ}, 0 ≤ n → n < (m : ℤ) → n.toNat < m := by
      intro n m h1 h2
      omega
    rcases hlab _ (htn hy0 hyh) _ (htn hx0 hxw) with h | h
    · exact Or.inl h
    · exact Or.inr (Or.inl h)
  · exact Or.inr (Or.inr rfl)

/-- C9 witness: the amended theorem applied to the concrete two-label image
at the out-of-bounds destination pixel. -/
theorem C9_nearest_labels_or_border_witness :
    (warpPerspectiveNearest imgC9 Hid (3, 1)).px 0 2 = 5 ∨
    (warpPerspectiveNearest imgC9 Hid (3, 1)).px 0 2 = 7 ∨
    (warpPerspectiveNearest imgC9 Hid (3, 1)).px 0 2 = 0 :=
  C9_nearest_labels_or_border imgC9 Hid (3, 1) 5 7 (by decide) 0 2

/-- C10 witness at concrete inputs: fx changes from 1 to 2. -/
theorem C10_class_level_K_aliasing_witness :
    (Camera.init (Camera.init K0 cfgA).2 cfgB).2 0 0 = cfgB.fx ∧
    (Camera.init (Camera.init K0 cfgA).2 cfgB).2 1 1 = cfgB.fy ∧
    (Camera.init (Camera.init K0 cfgA).2 cfgB).2 0 2 = cfgB.px ∧
    (Camera.init (Camera.init K0 cfgA).2 cfgB).2 1 2 = cfgB.py ∧
    (Camera.init (Camera.init K0 cfgA).2 cfgB).2 ≠
      (Camera.init K0 cfgA).2 ∧
    (Camera.init 1 cfgA).1.R = (Camera.init K0 cfgA).1.R ∧
    (Camera.init 1 cfgA).1.t = (Camera.init K0 cfgA).1.t ∧
    (Camera.init K0 cfgA).1.P =
      Camera.updateP ((Camera.init K0 cfgA).2) (setRCode cfgA)
        ((Camera.init K0 cfgA).1.t) :=
  C10_class_level_K_aliasing K0 1 cfgA cfgB
    (by norm_num [cfgA, cfgB])

end IPMSpec
